import Mathlib

/-!
# Formal model of the Diffusion Grammar Checker core (src/main.ts)

A shallow embedding of the Obsidian plugin `DiffusionGrammarPlugin`:
the content classifier `isProseContent`, the edit-tracking event handlers
(keyup / click), the correction dispatcher (`checkAndCorrectLine`,
`correctParagraph`), and the manual "correct current paragraph" command.

Strings are modelled as `List Char` (a JS string is a sequence of
code units; only their sequence structure matters here).  The remote
chat-completion call is modelled by its outcome, an
`Except (List Char) (Option (List Char))` value: `.error msg` is a thrown
error with message `msg`, `.ok none` is a response whose
`choices[0]?.message?.content` chain is undefined, and `.ok (some raw)` is
a response carrying text `raw`.
-/

/-- JS whitespace class (the characters relevant to `\s` and
`String.prototype.trim` that can appear here): space, tab, LF, CR,
vertical tab, form feed, no-break space, BOM. -/
def isWs (c : Char) : Bool :=
  c == ' ' || c == '\t' || c == '\n' || c == '\r' ||
  c == Char.ofNat 11 || c == Char.ofNat 12 ||
  c == Char.ofNat 160 || c == Char.ofNat 65279

/-- JS `String.prototype.trim`: drop leading and trailing whitespace. -/
def trim (l : List Char) : List Char :=
  List.rdropWhile isWs (List.dropWhile isWs l)

/-- The settings record `DiffusionGrammarSettings`. -/
structure Settings where
  apiKey : List Char
  enableAutoCorrect : Bool
  systemPrompt : List Char
  checkTables : Bool
  checkCodeBlocks : Bool
  checkLists : Bool
deriving DecidableEq

/-- The record `DEFAULT_SETTINGS` from src/main.ts (prompt text elided; it does not
influence any modelled behaviour). -/
def DEFAULT_SETTINGS : Settings :=
  { apiKey := []
    enableAutoCorrect := true
    systemPrompt := []
    checkTables := false
    checkCodeBlocks := false
    checkLists := true }

/-- The backtick character (code point 96). -/
def backtick : Char := Char.ofNat 96

/-- Drop one leading occurrence of `c` if present (a regex `c?` piece). -/
def dropOne (l : List Char) (c : Char) : List Char :=
  match l with
  | [] => []
  | x :: xs => if x == c then xs else l

/-- Source test `trimmedText.startsWith("\x60\x60\x60")` (three backticks). -/
def fenceTick (t : List Char) : Bool :=
  t.take 3 == [backtick, backtick, backtick]

/-- Source test `trimmedText.startsWith("~~~")`. -/
def fenceTilde (t : List Char) : Bool :=
  t.take 3 == ['~', '~', '~']

/-- Source test `trimmedText.match(/^\s\x7b4,\x7d/)`: at least 4 leading whitespace
characters. (Applied to the already-trimmed text, exactly as the source
does.) -/
def indentSpaces (t : List Char) : Bool :=
  decide (4 ≤ (t.takeWhile isWs).length)

/-- Source test `trimmedText.startsWith("\t")`. -/
def indentTab (t : List Char) : Bool :=
  t.take 1 == ['\t']

/-- Source test `trimmedText.includes("|") && (trimmedText.match(/\|/g) || []).length > 1`. -/
def pipeCount (t : List Char) : Bool :=
  t.contains '|' && decide (1 < (t.filter (fun c => c == '|')).length)

/-- Source test `trimmedText.match(/^\s*\|?\s*:?-+:?\s*\|/)`: markdown table separator.
Every adjacent pair of regex pieces draws from disjoint character classes,
so greedy left-to-right matching coincides with the regex semantics. -/
def tableSep (t : List Char) : Bool :=
  let r1 := t.dropWhile isWs
  let r2 := dropOne r1 '|'
  let r3 := r2.dropWhile isWs
  let r4 := dropOne r3 ':'
  match r4 with
  | '-' :: _ =>
    let r5 := r4.dropWhile (fun c => c == '-')
    let r6 := dropOne r5 ':'
    let r7 := r6.dropWhile isWs
    r7.take 1 == ['|']
  | _ => false

/-- Source test `trimmedText.match(/^\s*[-*+]\s+/)`: unordered list marker. -/
def ulistTest (t : List Char) : Bool :=
  match t.dropWhile isWs with
  | m :: c :: _ => (m == '-' || m == '*' || m == '+') && isWs c
  | _ => false

/-- Source test `trimmedText.match(/^\s*\d+\.\s+/)`: ordered list marker. -/
def olistTest (t : List Char) : Bool :=
  let r1 := t.dropWhile isWs
  match r1 with
  | d :: _ =>
    if d.isDigit then
      match r1.dropWhile Char.isDigit with
      | '.' :: c :: _ => isWs c
      | _ => false
    else false
  | _ => false

/-- Source test `trimmedText.match(/^\s*\[[ x]\]\s+/i)`: task-list marker. -/
def taskTest (t : List Char) : Bool :=
  match t.dropWhile isWs with
  | '[' :: m :: ']' :: c :: _ => (m == ' ' || m == 'x' || m == 'X') && isWs c
  | _ => false

/-- Source test `trimmedText.match(/^#+\s+/)`: one or more `#` then whitespace. -/
def headingTest (t : List Char) : Bool :=
  match t with
  | '#' :: _ =>
    match t.dropWhile (fun c => c == '#') with
    | c :: _ => isWs c
    | [] => false
  | _ => false

/-- Source test `trimmedText.match(/^\s*!?\[[^\]]*\]\([^)]*\)\s*$/)`: a line that is
entirely a markdown link or image. -/
def linkTest (t : List Char) : Bool :=
  let r1 := t.dropWhile isWs
  let r2 := dropOne r1 '!'
  match r2 with
  | '[' :: r3 =>
    match r3.dropWhile (fun c => c != ']') with
    | ']' :: '(' :: r5 =>
      match r5.dropWhile (fun c => c != ')') with
      | ')' :: r6 => r6.all isWs
      | _ => false
    | _ => false
  | _ => false

/-- The YAML frontmatter delimiter `---`. -/
def threeDashes : List Char := ['-', '-', '-']

/-- The classifier `isProseContent` from src/main.ts, one `else if` per source `if`. -/
def isProseContent (st : Settings) (text : List Char) : Bool :=
  let t := trim text
  if t.isEmpty then false
  else if st.checkCodeBlocks == false && (fenceTick t || fenceTilde t) then false
  else if st.checkCodeBlocks == false && (indentSpaces t || indentTab t) then false
  else if st.checkTables == false && pipeCount t then false
  else if st.checkTables == false && tableSep t then false
  else if st.checkLists == false && ulistTest t then false
  else if st.checkLists == false && olistTest t then false
  else if st.checkLists == false && taskTest t then false
  else if headingTest t then false
  else if linkTest t then false
  else if t == threeDashes then false
  else true


/-- Outcome of the remote chat-completion call. -/
abbrev RResp := Except (List Char) (Option (List Char))

/-- The mutable fields of `DiffusionGrammarPlugin`, plus the open document
(`doc`, the host editor's line buffer), an output log of user notices, a
log of remote requests issued (dispatch time, line, text), the queue of
requests currently outstanding (`pending`), the cooldown-expiry timers
scheduled by `checkAndCorrectLine` (`checkedTimers`), the run times of
click-listener bodies scheduled by `setTimeout` but not yet fired
(`clickBodies`), whether the
processing status item is visible (`statusShown`), whether an OpenAI
client object exists (`hasClient`), and the current clock in ms (`time`). -/
structure PluginState where
  settings : Settings
  hasClient : Bool
  isProcessing : Bool
  lastEditedContent : List (Int × List Char)
  lastCheckedLines : List Int
  checkedTimers : List (Int × Nat)
  lastCursorLine : Int
  processingLines : List Int
  doc : List (List Char)
  notices : List (List Char)
  requests : List (Nat × Int × List Char)
  pending : List (Int × List Char)
  clickBodies : List Nat
  statusShown : Bool
  time : Nat
deriving DecidableEq

/-- Host `editor.getLine(i)` (lines addressed by a JS number; negative or
out-of-range reads yield the empty string). -/
def docGet (d : List (List Char)) (i : Int) : List Char :=
  if 0 ≤ i then d.getD i.toNat [] else []

/-- Host `editor.setLine(i, v)`. -/
def docSet (d : List (List Char)) (i : Int) (v : List Char) : List (List Char) :=
  if 0 ≤ i then d.set i.toNat v else d

/-- JS `Map.get`. -/
def mapGet (m : List (Int × List Char)) (k : Int) : Option (List Char) :=
  (m.find? (fun p => p.1 == k)).map (fun p => p.2)

/-- JS `Map.set`: upsert. -/
def mapSet (m : List (Int × List Char)) (k : Int) (v : List Char) :
    List (Int × List Char) :=
  if m.any (fun p => p.1 == k) then
    m.map (fun p => if p.1 == k then (k, v) else p)
  else m ++ [(k, v)]

/-- JS `Map.delete`. -/
def mapDelete (m : List (Int × List Char)) (k : Int) : List (Int × List Char) :=
  m.filter (fun p => p.1 != k)

/-- JS `Set.add` (no-op when the element is present). -/
def setAdd (s : List Int) (k : Int) : List Int :=
  if s.contains k then s else s ++ [k]

/-- JS `Set.delete`. -/
def setDelete (s : List Int) (k : Int) : List Int :=
  s.filter (fun x => x != k)

/-- Remove the first occurrence of a pair from the outstanding queue. -/
def removeFirstPair : List (Int × List Char) → Int × List Char → List (Int × List Char)
  | [], _ => []
  | x :: xs, y => if x = y then xs else x :: removeFirstPair xs y

/-- The notice `"Please set your API key in settings"`. -/
def keyNotice : List Char := "Please set your API key in settings".data

/-- The notice `"Failed to correct text: " + message`. -/
def failNotice (msg : List Char) : List Char :=
  ("Failed to correct text: ".data) ++ msg

/-- The part of `correctParagraph` that runs after the preconditions and
before the `await`: set the global flag and per-line marker, show the
processing status, and issue the remote request. -/
def dispatchCorrection (s : PluginState) (lineNumber : Int) (text : List Char) :
    PluginState :=
  { s with isProcessing := true
           processingLines := setAdd s.processingLines lineNumber
           statusShown := true
           requests := s.requests ++ [(s.time, lineNumber, text)]
           pending := s.pending ++ [(lineNumber, text)] }

/-- The part of `correctParagraph` that runs when the awaited request
resolves: the `try` body after the response (apply the corrected text if
trimmed-non-empty and different), the `catch` (emit a failure notice), and
the `finally` (clear the flag and marker, hide the status). -/
def finishCorrection (s : PluginState) (lineNumber : Int) (text : List Char)
    (resp : RResp) : PluginState :=
  let s1 :=
    match resp with
    | .ok (some raw) =>
      let correctedText := trim raw
      if !correctedText.isEmpty && correctedText != text then
        { s with doc := docSet s.doc lineNumber correctedText }
      else s
    | .ok none => s
    | .error msg => { s with notices := s.notices ++ [failNotice msg] }
  { s1 with isProcessing := false
            processingLines := setDelete s1.processingLines lineNumber
            statusShown := false
            pending := removeFirstPair s1.pending (lineNumber, text) }

/-- The dispatcher `correctParagraph` as one whole invocation, parameterised by the
outcome `resp` of the remote call. -/
def correctParagraph (s : PluginState) (lineNumber : Int) (text : List Char)
    (resp : RResp) : PluginState :=
  if !s.hasClient then { s with notices := s.notices ++ [keyNotice] }
  else if (trim text).isEmpty then s
  else finishCorrection (dispatchCorrection s lineNumber text) lineNumber text resp

/-- The dispatcher `correctParagraph` up to its suspension point (used by the
event-level model, where the response arrives as a later event). -/
def startCorrection (s : PluginState) (lineNumber : Int) (text : List Char) :
    PluginState :=
  if !s.hasClient then { s with notices := s.notices ++ [keyNotice] }
  else if (trim text).isEmpty then s
  else dispatchCorrection s lineNumber text

/-- The routine `checkAndCorrectLine` up to the suspension point of the
`correctParagraph` it delegates to: classify, mark the line checked,
schedule the 5-second cooldown removal, dispatch. -/
def checkAndCorrectLineStart (s : PluginState) (lineNumber : Int)
    (text : List Char) : PluginState :=
  if !(isProseContent s.settings text) then s
  else
    let s1 := { s with
      lastCheckedLines := setAdd s.lastCheckedLines lineNumber
      checkedTimers := s.checkedTimers ++ [(lineNumber, s.time + 5000)] }
    startCorrection s1 lineNumber text

/-- The routine `checkEditedContent` from src/main.ts (defined there but never invoked
by any caller): the only routine that consults `lastCheckedLines` before
dispatching. -/
def checkEditedContent (s : PluginState) : PluginState :=
  if s.lastEditedContent.isEmpty then s
  else
    let s1 := s.lastEditedContent.foldl
      (fun acc p =>
        if acc.lastCheckedLines.contains p.1 then acc
        else if isProseContent acc.settings p.2 && !(trim p.2).isEmpty then
          checkAndCorrectLineStart acc p.1 p.2
        else acc) s
    { s1 with lastEditedContent := [] }

/-- The `keyup` DOM handler: track the current line's content, remember
the cursor line, and on Enter after a non-empty previous line dispatch a
check for that previous line, consuming its tracked entry. -/
def keyupHandler (s : PluginState) (enterKey : Bool) (cursorLine : Int) :
    PluginState :=
  if !s.settings.enableAutoCorrect || s.isProcessing then s
  else
    let currentLineText := docGet s.doc cursorLine
    let s1 :=
      if !(trim currentLineText).isEmpty then
        { s with lastEditedContent := mapSet s.lastEditedContent cursorLine currentLineText }
      else s
    let s2 := { s1 with lastCursorLine := cursorLine }
    if enterKey && decide (0 < cursorLine) then
      let previousLineText := docGet s2.doc (cursorLine - 1)
      if currentLineText.isEmpty && !previousLineText.isEmpty then
        match mapGet s2.lastEditedContent (cursorLine - 1) with
        | some editedText =>
          if !editedText.isEmpty then
            let s3 := checkAndCorrectLineStart s2 (cursorLine - 1) editedText
            { s3 with lastEditedContent := mapDelete s3.lastEditedContent (cursorLine - 1) }
          else s2
        | none => s2
      else s2
    else s2

/-- The `click` DOM listener as registered: the enable/in-flight guard
runs at click time, and when it passes the listener only schedules the
50 ms-delayed body (`setTimeout(..., 50)`) and returns.  Nothing is
re-checked when that body later fires. -/
def clickHandler (s : PluginState) : PluginState :=
  if !s.settings.enableAutoCorrect || s.isProcessing then s
  else { s with clickBodies := s.clickBodies ++ [s.time + 50] }

/-- The delayed `setTimeout` body of the click listener, firing with the
cursor position read at its own run time (FIFO among scheduled bodies,
and only if one is actually scheduled): if the cursor left a line whose
tracked content is prose, dispatch a check for it and consume its entry;
remember the new line.  The body performs no guard re-check. -/
def clickTimeoutBody (s : PluginState) (currentLine : Int) : PluginState :=
  match s.clickBodies with
  | [] => s
  | _ :: restBodies =>
    let s0 := { s with clickBodies := restBodies }
    let s1 :=
      if s0.lastCursorLine != -1 && s0.lastCursorLine != currentLine then
        match mapGet s0.lastEditedContent s0.lastCursorLine with
        | some lastLineText =>
          if !lastLineText.isEmpty && isProseContent s0.settings lastLineText then
            let s2 := checkAndCorrectLineStart s0 s0.lastCursorLine lastLineText
            { s2 with lastEditedContent := mapDelete s2.lastEditedContent s0.lastCursorLine }
          else s0
        | none => s0
      else s0
    { s1 with lastCursorLine := currentLine }

/-- The "Correct current paragraph" command callback: read the line at the
cursor and, when non-empty, invoke the correction directly. -/
def manualCommand (s : PluginState) (cursorLine : Int) : PluginState :=
  let text := docGet s.doc cursorLine
  if !text.isEmpty then startCorrection s cursorLine text else s

/-- Resolution of the outstanding remote call (FIFO). -/
def doneHandler (s : PluginState) (resp : RResp) : PluginState :=
  match s.pending with
  | [] => s
  | p :: _ => finishCorrection s p.1 p.2 resp

/-- A host-editor mutation of one document line (the user typing). -/
def editHandler (s : PluginState) (i : Int) (v : List Char) : PluginState :=
  { s with doc := docSet s.doc i v }

/-- Advance the clock to `t`: every scheduled cooldown-removal timer whose
deadline has passed fires (deleting its line from `lastCheckedLines`)
before the next event is handled. -/
def advance (s : PluginState) (t : Nat) : PluginState :=
  { s with
    time := t
    lastCheckedLines := s.lastCheckedLines.filter
      (fun l => !(s.checkedTimers.any (fun p => p.1 == l && decide (p.2 ≤ t))))
    checkedTimers := s.checkedTimers.filter (fun p => decide (t < p.2)) }

/-- The discrete events driving the plugin, each carrying its time in ms. -/
inductive Ev where
  | edit (t : Nat) (line : Int) (text : List Char)
  | keyup (t : Nat) (enterKey : Bool) (cursorLine : Int)
  | click (t : Nat)
  | clickBody (t : Nat) (currentLine : Int)
  | manual (t : Nat) (cursorLine : Int)
  | done (t : Nat) (resp : RResp)

/-- One event-loop turn. -/
def step (s : PluginState) (e : Ev) : PluginState :=
  match e with
  | .edit t i v => editHandler (advance s t) i v
  | .keyup t k c => keyupHandler (advance s t) k c
  | .click t => clickHandler (advance s t)
  | .clickBody t c => clickTimeoutBody (advance s t) c
  | .manual t c => manualCommand (advance s t) c
  | .done t r => doneHandler (advance s t) r

/-- Run a sequence of events. -/
def runEv (s : PluginState) (tr : List Ev) : PluginState :=
  tr.foldl step s

/-- Plugin state at activation over a given document: `onload` state with
an OpenAI client iff the configured API key is non-empty. -/
def mkInit (st : Settings) (d : List (List Char)) : PluginState :=
  { settings := st
    hasClient := !st.apiKey.isEmpty
    isProcessing := false
    lastEditedContent := []
    lastCheckedLines := []
    checkedTimers := []
    lastCursorLine := -1
    processingLines := []
    doc := d
    notices := []
    requests := []
    pending := []
    clickBodies := []
    statusShown := false
    time := 0 }

/-- The first element surviving `dropWhile isWs` is not whitespace. -/
theorem dropWhile_ws_head (l : List Char) :
    ∀ x xs, List.dropWhile isWs l = x :: xs → isWs x = false := by
  induction l with
  | nil => intro x xs h; simp [List.dropWhile] at h
  | cons a as ih =>
    intro x xs h
    rw [List.dropWhile_cons] at h
    cases ha : isWs a with
    | true => rw [ha] at h; simp only [if_pos] at h; exact ih x xs h
    | false =>
      rw [ha] at h
      simp only [Bool.false_eq_true, if_false, List.cons.injEq] at h
      rw [← h.1]; exact ha

/-- A list whose head is not whitespace is untouched by `dropWhile isWs`. -/
theorem dropWhile_ws_eq_self (u : List Char)
    (hu : ∀ x xs, u = x :: xs → isWs x = false) :
    List.dropWhile isWs u = u := by
  cases u with
  | nil => rfl
  | cons x xs => rw [List.dropWhile_cons, hu x xs rfl]; simp

/-- Trimmed text has no leading whitespace left. -/
theorem dropWhile_ws_trim (l : List Char) :
    List.dropWhile isWs (trim l) = trim l := by
  apply dropWhile_ws_eq_self
  intro x xs h
  have hpre : trim l <+: List.dropWhile isWs l := by
    unfold trim
    exact List.rdropWhile_prefix isWs (List.dropWhile isWs l)
  rw [h] at hpre
  obtain ⟨t, ht⟩ := hpre
  exact dropWhile_ws_head l x (xs ++ t) (by rw [← ht]; simp)

/-- JS `trim` is idempotent. -/
theorem trim_trim (l : List Char) : trim (trim l) = trim l := by
  show List.rdropWhile isWs (List.dropWhile isWs (trim l)) = trim l
  rw [dropWhile_ws_trim]
  show List.rdropWhile isWs (List.rdropWhile isWs (List.dropWhile isWs l)) = _
  exact List.rdropWhile_idempotent isWs (List.dropWhile isWs l)

/-- C9: for every input text and every fixed option set,
`isProseContent text = isProseContent (text.trim())` — the classification
is invariant under adding or removing leading and trailing whitespace. -/
theorem isProseContent_trim_invariant (st : Settings) (text : List Char) :
    isProseContent st text = isProseContent st (trim text) := by
  simp only [isProseContent, trim_trim]

/-- C6: a line whose trimmed form matches the heading pattern
(`#`-run followed by whitespace) classifies as non-prose regardless of
every toggle setting. -/
theorem heading_never_prose (st : Settings) (text : List Char)
    (h : headingTest (trim text) = true) :
    isProseContent st text = false := by
  simp [isProseContent, h]

/-- Witness for `heading_never_prose` at `"# Heading"` with every toggle
enabled. -/
theorem heading_never_prose_witness :
    headingTest (trim ("# Heading".data)) = true ∧
      isProseContent
        { DEFAULT_SETTINGS with
            checkTables := true, checkCodeBlocks := true, checkLists := true }
        ("# Heading".data) = false :=
  ⟨by decide, heading_never_prose _ _ (by decide)⟩

/-- C5 (failing input): with `checkCodeBlocks` unset, a line beginning
with four spaces is classified as prose by the code — the source tests
`trimmedText` (already stripped of leading whitespace) against the
indent patterns, so the indented-code rule can never fire.  The claim
(and the spec) say such a line classifies as non-prose. -/
theorem indented_code_line_classified_prose :
    DEFAULT_SETTINGS.checkCodeBlocks = false ∧
      isProseContent DEFAULT_SETTINGS ("    indented text".data) = true := by
  constructor
  · rfl
  · decide

/-- Deleting a line from a line set really removes it. -/
theorem setDelete_not_mem (xs : List Int) (k : Int) : k ∉ setDelete xs k := by
  intro h
  rw [setDelete, List.mem_filter] at h
  simp at h

/-- Deleting a freshly added absent line restores the set. -/
theorem setDelete_setAdd (xs : List Int) (k : Int) (h : k ∉ xs) :
    setDelete (setAdd xs k) k = xs := by
  have hall : ∀ x ∈ xs, (x != k) = true := by
    intro x hx
    simp only [bne_iff_ne, ne_eq]
    intro he; exact h (he ▸ hx)
  by_cases hc : xs.contains k
  · rw [setAdd, if_pos hc, setDelete, List.filter_eq_self.mpr hall]
  · rw [setAdd, if_neg hc, setDelete, List.filter_append,
      List.filter_eq_self.mpr hall]
    simp

/-- Writing one document line leaves every other index unchanged. -/
theorem docGet_docSet_ne (d : List (List Char)) (j i : Int) (v : List Char)
    (h : i ≠ j) : docGet (docSet d j v) i = docGet d i := by
  unfold docGet docSet
  by_cases hj : 0 ≤ j
  · by_cases hi : 0 ≤ i
    · have hne : j.toNat ≠ i.toNat := by
        intro he
        exact h (by rw [← Int.toNat_of_nonneg hi, ← Int.toNat_of_nonneg hj, he])
      simp only [hi, hj, if_pos, if_true]
      rw [List.getD_eq_getElem?_getD, List.getD_eq_getElem?_getD,
        List.getElem?_set_ne hne]
    · simp [hi, hj]
  · simp [hj]

/-- C3: when the remote client raises an error, `correctParagraph` leaves
the document unchanged, emits exactly one notice consisting of
`"Failed to correct text: "` followed by the underlying message, clears
the global in-flight flag, and clears the per-line in-flight marker.  (In
the model `correctParagraph` is a total function, so the error is
consumed at this boundary rather than re-thrown.) -/
theorem correctParagraph_failure_path (s : PluginState) (line : Int)
    (text msg : List Char) (hc : s.hasClient = true)
    (ht : (trim text).isEmpty = false) :
    (correctParagraph s line text (.error msg)).doc = s.doc ∧
    (correctParagraph s line text (.error msg)).notices
        = s.notices ++ [failNotice msg] ∧
    (correctParagraph s line text (.error msg)).isProcessing = false ∧
    line ∉ (correctParagraph s line text (.error msg)).processingLines := by
  simp only [correctParagraph, hc, ht, Bool.not_true, Bool.false_eq_true,
    if_false, finishCorrection, dispatchCorrection]
  refine ⟨trivial, trivial, trivial, ?_⟩
  exact setDelete_not_mem _ _

/-- Witness for `correctParagraph_failure_path`. -/
theorem correctParagraph_failure_path_witness :
    (mkInit { DEFAULT_SETTINGS with apiKey := ("k".data) } [("Teh fox.".data)]).hasClient
        = true ∧
    (trim ("Teh fox.".data)).isEmpty = false ∧
    (correctParagraph
        (mkInit { DEFAULT_SETTINGS with apiKey := ("k".data) } [("Teh fox.".data)])
        0 ("Teh fox.".data) (.error ("boom".data))).doc
      = (mkInit { DEFAULT_SETTINGS with apiKey := ("k".data) } [("Teh fox.".data)]).doc ∧
    (correctParagraph
        (mkInit { DEFAULT_SETTINGS with apiKey := ("k".data) } [("Teh fox.".data)])
        0 ("Teh fox.".data) (.error ("boom".data))).isProcessing = false := by
  refine ⟨by decide, by decide, ?_, ?_⟩
  · exact (correctParagraph_failure_path _ 0 _ _ (by decide) (by decide)).1
  · exact (correctParagraph_failure_path _ 0 _ _ (by decide) (by decide)).2.2.1

/-- A configured state over the single-line document `"a "`. -/
def c4State : PluginState :=
  mkInit { DEFAULT_SETTINGS with apiKey := ("k".data) } [("a ".data)]

/-- C4 (counterexample): the claim says a returned text identical to the
input leaves the document byte-for-byte unchanged.  With input line
`"a "` and the client returning exactly `"a "`, the code compares and
writes the *trimmed* response: the line is rewritten to `"a"`, so the
document changes. -/
theorem correctParagraph_identical_response_mutates :
    (correctParagraph c4State 0 ("a ".data) (.ok (some ("a ".data)))).doc
        ≠ c4State.doc ∧
    (correctParagraph c4State 0 ("a ".data) (.ok (some ("a ".data)))).doc
        = [("a".data)] := by
  constructor
  · decide
  · decide

/-- C4 (amended): on a successful response, if the *trimmed* returned
text is non-empty and differs from the original input text, the target
line is replaced with the *trimmed* returned text; if the trimmed
returned text is empty or equals the input text (and likewise when the
response carries no content at all), the document is unchanged. -/
theorem correctParagraph_success_doc (s : PluginState) (line : Int)
    (text raw : List Char) (hc : s.hasClient = true)
    (ht : (trim text).isEmpty = false) :
    ((trim raw).isEmpty = false → trim raw ≠ text →
      (correctParagraph s line text (.ok (some raw))).doc
        = docSet s.doc line (trim raw)) ∧
    ((trim raw).isEmpty = true ∨ trim raw = text →
      (correctParagraph s line text (.ok (some raw))).doc = s.doc) ∧
    (correctParagraph s line text (.ok none)).doc = s.doc := by
  refine ⟨?_, ?_, ?_⟩
  · intro h1 h2
    simp [correctParagraph, hc, ht, finishCorrection, dispatchCorrection, h1, h2]
  · intro h1
    rcases h1 with h1 | h1 <;>
      simp [correctParagraph, hc, ht, finishCorrection, dispatchCorrection, h1]
  · simp [correctParagraph, hc, ht, finishCorrection, dispatchCorrection]

/-- Witness for `correctParagraph_success_doc`: the scenario sentence of
the spec — `"Teh quick fox jump over the fence."` corrected to
`"The quick fox jumped over the fence."` replaces the line, and an
identical response leaves the document unchanged. -/
theorem correctParagraph_success_doc_witness :
    (correctParagraph
        (mkInit { DEFAULT_SETTINGS with apiKey := ("k".data) }
          [("Teh quick fox jump over the fence.".data)])
        0 ("Teh quick fox jump over the fence.".data)
        (.ok (some ("The quick fox jumped over the fence.".data)))).doc
      = [("The quick fox jumped over the fence.".data)] ∧
    (correctParagraph
        (mkInit { DEFAULT_SETTINGS with apiKey := ("k".data) }
          [("Teh quick fox jump over the fence.".data)])
        0 ("Teh quick fox jump over the fence.".data)
        (.ok (some ("Teh quick fox jump over the fence.".data)))).doc
      = [("Teh quick fox jump over the fence.".data)] := by
  constructor
  · rw [(correctParagraph_success_doc _ 0 _ _ (by decide) (by decide)).1
      (by decide) (by decide)]
    decide
  · rw [(correctParagraph_success_doc _ 0 _ _ (by decide) (by decide)).2.1
      (Or.inr (by decide))]
    decide

/-- C7: with no correction client configured, `correctParagraph` emits
the API-key notice and returns with no other state change (in particular
no request is issued); with a client but text trimming to empty, it
returns the state exactly as it was, silently. -/
theorem correctParagraph_preconditions (s : PluginState) (line : Int)
    (text : List Char) (resp : RResp) :
    (s.hasClient = false →
      correctParagraph s line text resp
        = { s with notices := s.notices ++ [keyNotice] }) ∧
    (s.hasClient = true → (trim text).isEmpty = true →
      correctParagraph s line text resp = s) := by
  constructor
  · intro h
    simp [correctParagraph, h]
  · intro h1 h2
    simp [correctParagraph, h1, h2]

/-- Witness for `correctParagraph_preconditions`: no key configured, and
a configured client with whitespace-only text. -/
theorem correctParagraph_preconditions_witness :
    (mkInit DEFAULT_SETTINGS [("x".data)]).hasClient = false ∧
    correctParagraph (mkInit DEFAULT_SETTINGS [("x".data)]) 0 ("x".data)
        (.ok none)
      = { mkInit DEFAULT_SETTINGS [("x".data)] with
            notices := (mkInit DEFAULT_SETTINGS [("x".data)]).notices ++ [keyNotice] } ∧
    correctParagraph c4State 0 ("  ".data) (.ok none) = c4State := by
  refine ⟨by decide, ?_, ?_⟩
  · exact (correctParagraph_preconditions _ 0 _ _).1 (by decide)
  · exact (correctParagraph_preconditions c4State 0 _ _).2 (by decide) (by decide)

/-- C10: on every exit path of `correctParagraph` (no-client abort,
empty-text abort, success, no-op response, failure), the tracked-edit
map, the checked-cooldown set and its timers, the remembered cursor
line, and the settings record are unchanged; every document line other
than the target is unchanged; and the in-flight flags return to their
initial cleared values when they started cleared. -/
theorem correctParagraph_frame (s : PluginState) (line : Int)
    (text : List Char) (resp : RResp) :
    (correctParagraph s line text resp).lastEditedContent = s.lastEditedContent ∧
    (correctParagraph s line text resp).lastCheckedLines = s.lastCheckedLines ∧
    (correctParagraph s line text resp).checkedTimers = s.checkedTimers ∧
    (correctParagraph s line text resp).lastCursorLine = s.lastCursorLine ∧
    (correctParagraph s line text resp).settings = s.settings ∧
    (∀ i : Int, i ≠ line →
      docGet (correctParagraph s line text resp).doc i = docGet s.doc i) ∧
    (s.isProcessing = false →
      (correctParagraph s line text resp).isProcessing = false) ∧
    (line ∉ s.processingLines →
      (correctParagraph s line text resp).processingLines = s.processingLines) ∧
    (s.statusShown = false →
      (correctParagraph s line text resp).statusShown = false) := by
  unfold correctParagraph
  by_cases hc : s.hasClient
  · by_cases ht : (trim text).isEmpty
    · simp [hc, ht]
    · simp only [hc, ht, Bool.not_true, Bool.false_eq_true, if_false]
      unfold finishCorrection dispatchCorrection
      rcases resp with msg | content
      · refine ⟨rfl, rfl, rfl, rfl, rfl, ?_, ?_, ?_, ?_⟩
        · intro i _; rfl
        · intro _; rfl
        · intro h; exact setDelete_setAdd _ _ h
        · intro _; rfl
      · rcases content with _ | raw
        · refine ⟨rfl, rfl, rfl, rfl, rfl, ?_, ?_, ?_, ?_⟩
          · intro i _; rfl
          · intro _; rfl
          · intro h; exact setDelete_setAdd _ _ h
          · intro _; rfl
        · by_cases hw : !(trim raw).isEmpty && trim raw != text
          · dsimp only
            rw [if_pos hw]
            exact ⟨rfl, rfl, rfl, rfl, rfl,
              fun i hi => docGet_docSet_ne _ _ _ _ hi,
              fun _ => rfl,
              fun h => setDelete_setAdd _ _ h,
              fun _ => rfl⟩
          · dsimp only
            rw [if_neg hw]
            exact ⟨rfl, rfl, rfl, rfl, rfl,
              fun i _ => rfl,
              fun _ => rfl,
              fun h => setDelete_setAdd _ _ h,
              fun _ => rfl⟩
  · simp [hc]

/-- Witness for `correctParagraph_frame` on the failure path. -/
theorem correctParagraph_frame_witness :
    (correctParagraph c4State 0 ("a ".data) (.error ("boom".data))).lastEditedContent
        = c4State.lastEditedContent ∧
    (correctParagraph c4State 0 ("a ".data) (.error ("boom".data))).lastCheckedLines
        = c4State.lastCheckedLines ∧
    docGet (correctParagraph c4State 0 ("a ".data) (.error ("boom".data))).doc 1
        = docGet c4State.doc 1 ∧
    (correctParagraph c4State 0 ("a ".data) (.error ("boom".data))).processingLines
        = c4State.processingLines := by
  refine ⟨(correctParagraph_frame c4State 0 _ _).1,
    (correctParagraph_frame c4State 0 _ _).2.1,
    (correctParagraph_frame c4State 0 _ _).2.2.2.2.2.1 1 (by decide),
    (correctParagraph_frame c4State 0 _ _).2.2.2.2.2.2.2.1 (by decide)⟩

/-- C8: the manual "correct current paragraph" command neither consults
nor updates the checked-cooldown set (replacing it by anything changes
nothing else in the outcome), does not consult the prose classifier, and
dispatches the line at the cursor exactly when a client is configured
and the line text is non-empty with non-empty trim — no prose or
cooldown condition appears. -/
theorem manualCommand_bypasses_classifier_and_cooldown (s : PluginState)
    (cur : Int) (X : List Int) (Y : List (Int × Nat)) :
    (manualCommand s cur).lastCheckedLines = s.lastCheckedLines ∧
    (manualCommand s cur).checkedTimers = s.checkedTimers ∧
    manualCommand { s with lastCheckedLines := X, checkedTimers := Y } cur
      = { manualCommand s cur with lastCheckedLines := X, checkedTimers := Y } ∧
    (manualCommand s cur).requests
      = (if s.hasClient = true ∧ (docGet s.doc cur).isEmpty = false
            ∧ (trim (docGet s.doc cur)).isEmpty = false
         then s.requests ++ [(s.time, cur, docGet s.doc cur)]
         else s.requests) := by
  unfold manualCommand startCorrection dispatchCorrection
  by_cases h1 : (docGet s.doc cur).isEmpty
  · simp [h1]
  · by_cases h2 : s.hasClient
    · by_cases h3 : (trim (docGet s.doc cur)).isEmpty
      · simp [h1, h2, h3]
      · simp [h1, h2, h3]
    · simp [h1, h2]

/-- A configured settings record (non-empty API key). -/
def keyedSettings : Settings := { DEFAULT_SETTINGS with apiKey := ("k".data) }

/-- Line 0's prose text in the double-click scenario. -/
def lineA : List Char := "Teh fox A.".data

/-- Line 5's prose text in the double-click scenario. -/
def lineB : List Char := "Teh fox B.".data

/-- Six-line document with prose on lines 0 and 5. -/
def c1Doc : List (List Char) := [lineA, [], [], [], [], lineB]

/-- Track lines 0 and 5 by typing on them, then click twice in quick
succession while idle: both clicks pass the in-flight guard and schedule
their delayed bodies (t=1050 and t=1070).  The first body dispatches
line 5 (cursor now on line 0) and the request stays outstanding; the
second body fires with the cursor meanwhile moved to line 2 and — with
no guard re-check — dispatches line 0 too. -/
def c1Trace : List Ev :=
  [ Ev.keyup 0 false 0
  , Ev.keyup 10 false 5
  , Ev.click 1000
  , Ev.click 1020
  , Ev.clickBody 1050 0
  , Ev.clickBody 1070 2 ]

/-- C1 (failing run): the click listener checks the in-flight guard at
click time but its 50 ms-delayed body runs with no re-check, and
`correctParagraph` itself never consults `isProcessing`.  Two clicks
passing the guard while idle therefore dispatch two corrections, the
second while the first is still outstanding: after the first body one
request is outstanding with the flag set, and after the second body two
requests are outstanding at once — refuting "at most one correction
request is outstanding globally at any time" and "any second trigger is
dropped rather than issuing a second remote call". -/
theorem delayed_click_body_breaks_mutual_exclusion :
    (runEv (mkInit keyedSettings c1Doc) (c1Trace.take 5)).pending
        = [(5, lineB)] ∧
    (runEv (mkInit keyedSettings c1Doc) (c1Trace.take 5)).isProcessing = true ∧
    (runEv (mkInit keyedSettings c1Doc) c1Trace).pending
        = [(5, lineB), (0, lineA)] ∧
    (runEv (mkInit keyedSettings c1Doc) c1Trace).requests
        = [(1050, 5, lineB), (1070, 0, lineA)] := by
  exact ⟨by decide, by decide, by decide, by decide⟩

/-- Line 0's text before its first dispatch. -/
def c2t1 : List Char := "Teh quick fox.".data

/-- Line 0's re-tracked (different) text. -/
def c2t2 : List Char := "Teh quick foxx.".data

/-- Type line 0, dispatch via Enter at t=50ms (marking line 0 checked
until t=5050ms), let the request resolve, re-edit line 0 with different
text, and click away at t=1100ms; the click's delayed body fires at
t=1150ms with the cursor on line 1. -/
def c2Trace : List Ev :=
  [ Ev.edit 0 0 c2t1
  , Ev.keyup 0 false 0
  , Ev.keyup 50 true 1
  , Ev.done 150 (Except.ok none)
  , Ev.edit 1000 0 c2t2
  , Ev.keyup 1000 false 0
  , Ev.click 1100
  , Ev.clickBody 1150 1 ]

/-- C2 (failing run): the live trigger paths never consult the
checked-cooldown set — only the never-called `checkEditedContent` does —
so a line marked checked is dispatched a second time within its 5-second
window when re-tracked with different text.  Here line 0 is dispatched at
t=50ms and again at t=1150ms, while its cooldown entry (expiry t=5050ms)
is still present immediately before the second dispatch. -/
theorem cooldown_not_consulted_second_dispatch :
    (runEv (mkInit keyedSettings [[], []]) c2Trace).requests
        = [(50, 0, c2t1), (1150, 0, c2t2)] ∧
    (runEv (mkInit keyedSettings [[], []]) (c2Trace.take 7)).lastCheckedLines
        = [0] ∧
    (runEv (mkInit keyedSettings [[], []]) (c2Trace.take 7)).checkedTimers
        = [(0, 5050)] ∧
    1150 < 50 + 5000 := by
  exact ⟨by decide, by decide, by decide, by decide⟩
